import Mathlib

/-!
Verification of the kocha web framework's dispatch and rendering pipeline.

This file gives a shallow embedding, in Lean 4, of the request-dispatch and
response-rendering core of the kocha MVC framework, and proves the behavioural
properties stated in its specification against that embedding.

The repository holds source from three generations of the framework:

* `util.go` — path canonicalization (`normPath`, built on Go's `path.Clean`);
* `controller.go` + `server.go` — the legacy generation: a plain
  `http.HandlerFunc` dispatcher, `Controller.Render` with a variadic context
  argument, and the `MimeTypeFormats` MIME → format table;
* `kocha.go` — the middle generation: `Application.ServeHTTP` and the
  `Application.render` lifecycle (middleware Before/After, panic recovery);
* `renderer.go` — the current renderer: `Render`, `RenderError`, `SendFile`
  operating on a per-request `Context`.

Pure functions of the source become Lean functions; panics become explicit
`Except`/outcome values; the mutable response writer becomes explicit state
passing; Go map lookup returning the zero value becomes an association-list
lookup defaulting to `""`.  Helpers of the repository that are not present
under the sources given here (the `Context` content-type/format helpers, the
error controller, `newResponse`) are modelled from the specification and are
marked as such in their doc comments.
-/

namespace Kocha

/-! ## Go `path.Clean` and `normPath` (util.go) -/

/-- Segment processing of Go's `path.Clean`: walk the slash-separated
segments of the path, skipping empty and `"."` segments; `".."` pops the
last kept segment, except that at the root of a rooted path it is dropped
and at the head of a relative path it is kept.  `stack` holds the kept
segments in reverse order.  A `".."` segment pops the last kept segment
(`dotDotStep`): with an empty stack it is dropped on a rooted path and kept
on a relative one; atop an earlier kept `".."` it accumulates. -/
def dotDotStep (rooted : Bool) : List String → List String
  | [] => if rooted then [] else [".."]
  | top :: stk => if top = ".." then ".." :: top :: stk else stk

/-- See `dotDotStep` for the `".."` case. -/
def processSegs (rooted : Bool) : List String → List String → List String
  | [], stack => stack.reverse
  | seg :: rest, stack =>
    if seg = "" ∨ seg = "." then processSegs rooted rest stack
    else if seg = ".." then processSegs rooted rest (dotDotStep rooted stack)
    else processSegs rooted rest (seg :: stack)

/-- Whether a path is rooted (begins with a slash); char-level equivalent
of `strings.HasPrefix(p, "/")`, kept kernel-computable. -/
def startsWithSlash (p : String) : Bool :=
  match p.data with
  | [] => false
  | c :: _ => c = '/'

/-- Split a character list at every slash (the segments of a path),
keeping empty segments like Go's `strings.Split`. -/
def splitSlashes : List Char → List Char → List String
  | [], cur => [String.mk cur.reverse]
  | c :: rest, cur =>
    if c = '/' then String.mk cur.reverse :: splitSlashes rest []
    else splitSlashes rest (c :: cur)

/-- Join path segments with single slashes (`strings.Join(segs, "/")`). -/
def joinSegs : List String → String
  | [] => ""
  | [s] => s
  | s :: rest => s ++ "/" ++ joinSegs rest

/-- Model of Go's `path.Clean`: returns the shortest equivalent path,
`"."` for the empty path, with redundant `"."`, `".."` and double-slash
segments resolved. -/
def pathClean (p : String) : String :=
  if p = "" then "."
  else
    let rooted := startsWithSlash p
    let segs := processSegs rooted (splitSlashes p.data []) []
    if rooted then "/" ++ joinSegs segs
    else if segs = [] then "." else joinSegs segs

/-- `normPath` from `util.go`:
`result := path.Clean(p); if p[len(p)-1] == '/' && result != "/" { result += "/" }`.
The unguarded byte index `p[len(p)-1]` panics on the empty string; the panic
is modelled as `none`. -/
def normPath (p : String) : Option String :=
  match p.data.getLast? with
  | none => none
  | some last =>
    let result := pathClean p
    some (if last = '/' ∧ result ≠ "/" then result ++ "/" else result)

/-! ## `MimeTypeFormats` and the legacy `Controller.Render` (controller.go) -/

/-- `MimeTypeFormats` from `controller.go`: the fixed MIME type → format
token table, as an association list. -/
def MimeTypeFormats : List (String × String) :=
  [("application/json", "json"), ("application/xml", "xml"),
   ("text/html", "html"), ("text/plain", "txt")]

/-- `mimeTypeFormats.Get`: Go map indexing returns the zero value `""`
when the key is absent. -/
def mimeTypeFormatsGet (mimeType : String) : String :=
  match MimeTypeFormats.find? (fun kv => kv.1 = mimeType) with
  | some kv => kv.2
  | none => ""

/-- A compiled template, abstracted: `exec` models `t.Execute(&buf, c)`
on the per-request context — either the produced bytes or an execution
error. -/
structure Template where
  exec : Except String String

/-- The legacy context bag (`type Context map[string]interface{}`);
the `interface{}` values are abstracted as strings. -/
abbrev CtxBag := List (String × String)

/-- Legacy controller state used by `Controller.Render`: the controller
name and the response content type (`c.Response.ContentType`). -/
structure OldController where
  Name : String
  ContentType : String

/-- Legacy application configuration (`appConfig`): the application name
and the template-set lookup `TemplateSet.Get(appName, name, format)`,
`none` modelling a nil template. -/
structure OldAppConfig where
  AppName : String
  TemplateSetGet : String → String → String → Option Template

/-- `ResultTemplate` from `controller.go`: a template render directive
carrying the template and the (possibly nil) context bag. -/
structure ResultTemplate where
  Template : Template
  Context : Option CtxBag

/-- Outcome of the legacy `Controller.Render`: a returned `Result`, or a
panic with the given message. -/
inductive RenderOut
  | panicked (msg : String)
  | ok (r : ResultTemplate)

/-- Body of `Controller.Render` after the variadic-arity switch: look up
the format for the response content type (panic `unknown Content-Type` when
the table has no entry), then the template (panic `no such template` when
nil), else return the `ResultTemplate`. -/
def renderWithCtx (ac : OldAppConfig) (c : OldController) (ctx : Option CtxBag) : RenderOut :=
  let format := mimeTypeFormatsGet c.ContentType
  if format = "" then .panicked ("unknown Content-Type: " ++ c.ContentType)
  else
    match ac.TemplateSetGet ac.AppName c.Name format with
    | none => .panicked "no such template"
    | some t => .ok ⟨t, ctx⟩

/-- `Controller.Render` from `controller.go`: variadic `context ...Context`;
zero arguments leave the context nil, one argument is used as the context,
more than one panics with `too many arguments`. -/
def ControllerRender (ac : OldAppConfig) (c : OldController) (context : List CtxBag) : RenderOut :=
  match context with
  | [] => renderWithCtx ac c none
  | [ctx] => renderWithCtx ac c (some ctx)
  | _ => .panicked "too many arguments"

/-! ## The current renderer (renderer.go) -/

/-- `StaticDir` from `kocha.go`. -/
def StaticDir : String := "public"

/-- Model of Go's `net/http.StatusText`, restricted to the status codes
this core can emit plus a few common ones; like Go, it returns `""` for a
code outside the table (e.g. an unassigned code such as 999). -/
def statusText (code : Nat) : String :=
  match code with
  | 200 => "OK"
  | 301 => "Moved Permanently"
  | 302 => "Found"
  | 400 => "Bad Request"
  | 403 => "Forbidden"
  | 404 => "Not Found"
  | 500 => "Internal Server Error"
  | _ => ""

/-- The response wrapper fields the renderer reads and writes. -/
structure CResponse where
  ContentType : String
  StatusCode : Nat
deriving DecidableEq

/-- The application seen by the renderer: name, root path, template-set
lookup `Template.Get(appName, layout, name, format)` (an `error` result
modelling a failed lookup), and the embedded resource set
`ResourceSet.Get(path)` (string/byte contents abstracted as `String`). -/
structure RApp where
  AppName : String
  AppPath : String
  TemplateGet : String → String → String → String → Except String Template
  ResourceSetGet : String → Option String

/-- The per-request `Context` of the current renderer: owning application,
controller name, layout, resolved format, data bag (abstracted), and the
response wrapper. -/
structure RCtx where
  App : RApp
  Name : String
  Layout : String
  Format : String
  Data : Option String
  Response : CResponse

/-- A written HTTP response: the observable outcome of a successful render. -/
structure Written where
  ContentType : String
  StatusCode : Nat
  Body : String
deriving DecidableEq

/-- Modelled from the spec: `Context.setData` (not under src/) — a nil
`data` leaves the data bag as is, otherwise the bag is set to `data`. -/
def setData (data : Option String) (c : RCtx) : RCtx :=
  match data with
  | none => c
  | some d => { c with Data := some d }

/-- Modelled from the spec: `Context.setContentTypeIfNotExists` (not under
src/) — set the response content type to the given default only when none
has been set. -/
def setContentTypeIfNotExists (ct : String) (c : RCtx) : RCtx :=
  if c.Response.ContentType = "" then { c with Response := { c.Response with ContentType := ct } }
  else c

/-- Modelled from the spec: `Context.setFormatFromContentTypeIfNotExists`
(not under src/) — when no format is resolved yet, derive it from the
response content type through `MimeTypeFormats`; a content type outside the
table is a hard `unknown content type` error. -/
def setFormatFromContentTypeIfNotExists (c : RCtx) : Except String RCtx :=
  if c.Format = "" then
    let f := mimeTypeFormatsGet c.Response.ContentType
    if f = "" then .error ("unknown content type: " ++ c.Response.ContentType)
    else .ok { c with Format := f }
  else .ok c

/-- Modelled from the spec: `Context.render` (not under src/) — write the
given bytes to the response with the context's current content type and
status code. -/
def contextRender (c : RCtx) (body : String) : Written :=
  ⟨c.Response.ContentType, c.Response.StatusCode, body⟩

/-- Modelled from the spec: `errorTemplateName` (not under src/) — error
templates are named after the numeric status code under `errors/`
(`renderer.go` doc: a 500 render tries `errors/500.xml`). -/
def errorTemplateName (statusCode : Nat) : String :=
  "errors/" ++ toString statusCode

/-- `Render` from `renderer.go`: set the data bag, default the content type
to `text/html`, resolve the format from the content type, look up the
template by (app name, layout, controller name, format), execute it, and
write the result. -/
def Render (c : RCtx) (data : Option String) : Except String Written :=
  let c := setData data c
  let c := setContentTypeIfNotExists "text/html" c
  match setFormatFromContentTypeIfNotExists c with
  | .error e => .error e
  | .ok c =>
    match c.App.TemplateGet c.App.AppName c.Layout c.Name c.Format with
    | .error e => .error e
    | .ok t =>
      match t.exec with
      | .error e => .error e
      | .ok body => .ok (contextRender c body)

/-- `RenderError` from `renderer.go`: set the data bag, default the content
type to `text/html`, resolve the format, set the response status code and
the error-template name; if the template lookup fails, fall back to the
plain-text standard reason phrase; otherwise execute the template. -/
def RenderError (c : RCtx) (statusCode : Nat) (data : Option String) : Except String Written :=
  let c := setData data c
  let c := setContentTypeIfNotExists "text/html" c
  match setFormatFromContentTypeIfNotExists c with
  | .error e => .error e
  | .ok c =>
    let c := { c with Response := { c.Response with StatusCode := statusCode },
                      Name := errorTemplateName statusCode }
    match c.App.TemplateGet c.App.AppName c.Layout c.Name c.Format with
    | .error _ =>
      let c := { c with Response := { c.Response with ContentType := "text/plain" } }
      .ok (contextRender c (statusText statusCode))
    | .ok t =>
      match t.exec with
      | .error e => .error e
      | .ok body => .ok (contextRender c body)

/-- Model of Go's `path/filepath.IsAbs` on a slash-separated system. -/
def filepathIsAbs (p : String) : Bool :=
  startsWithSlash p

/-- Model of Go's `path/filepath.Join` on a slash-separated system: join
the non-empty elements with `/` and clean the result. -/
def filepathJoin (parts : List String) : String :=
  pathClean (joinSegs (parts.filter (fun s => s ≠ "")))

/-- `SendFile` from `renderer.go`.  `fs` models the filesystem
(`os.Stat` + `os.Open` + read: `some contents` when the file exists),
`detectExt`/`detectBody` model `util.DetectContentTypeByExt` and
`util.DetectContentTypeByBody`.  The resource set is consulted first; only
when it misses is an absolute path read as is and a relative path resolved
under `AppPath/public`; a file found nowhere renders a 404 error Result. -/
def SendFile (fs : String → Option String) (detectExt detectBody : String → String)
    (c : RCtx) (path : String) : Except String Written :=
  match c.App.ResourceSetGet path with
  | some content =>
    let ct := detectExt path
    let ct := if ct = "" then detectBody content else ct
    let c := { c with Response := { c.Response with ContentType := ct } }
    .ok (contextRender c content)
  | none =>
    let path := if filepathIsAbs path then path
                else filepathJoin [c.App.AppPath, StaticDir, path]
    match fs path with
    | none => RenderError c 404 none
    | some content =>
      let ct := detectExt path
      let ct := if ct = "" then detectBody content else ct
      let c := { c with Response := { c.Response with ContentType := ct } }
      .ok (contextRender c content)

/-! ## The legacy dispatcher (server.go) -/

/-- A response writer: Go's `http.ResponseWriter` semantics — the first
`WriteHeader` fixes the status, a `Write` before any `WriteHeader`
implicitly fixes it to 200, and writes append to the body. -/
structure RW where
  status : Option Nat
  body : String
deriving DecidableEq

/-- A fresh response writer. -/
def RW.init : RW := ⟨none, ""⟩

/-- `WriteHeader`: only the first call takes effect. -/
def RW.writeHeader (w : RW) (code : Nat) : RW :=
  if w.status.isSome then w else { w with status := some code }

/-- `Write`: an implicit `WriteHeader(200)` when none has happened, then
append the bytes. -/
def RW.write (w : RW) (s : String) : RW :=
  let w := w.writeHeader 200
  { w with body := w.body ++ s }

/-- Go's `http.Error(w, msg, code)`: write the header and `msg`
followed by a newline. -/
def httpError (w : RW) (msg : String) (code : Nat) : RW :=
  (w.writeHeader code).write (msg ++ "\n")

/-- Go's `http.NotFound(w, req)`: a plain 404 page. -/
def httpNotFound (w : RW) : RW :=
  httpError w "404 page not found" 404

/-- A legacy `Result`: `proc` models `Result.Proc(writer)` — the bytes it
writes, or a panic. -/
structure OldResult where
  proc : Except String String

/-- A matched legacy handler: `call` models `method.Call(args)` — the
returned `Result`, or a panic raised inside the action. -/
structure OldHandler where
  call : Except String OldResult

/-- The legacy application state shared across requests (`appConfig` with
its route table): `dispatch` maps a request path to the matched handler,
`none` on no match. -/
structure OldApp where
  dispatch : String → Option OldHandler

/-- `handler` from `server.go`, with the shared application state passed
explicitly and returned so that cross-request mutation is observable:
dispatch; on no match reply `http.NotFound` and return; otherwise call the
action and `Proc` its result under a deferred recover that turns any panic
into a logged plain `500 Internal Server Error`. -/
def handler (app : OldApp) (w : RW) (path : String) : RW × OldApp :=
  match app.dispatch path with
  | none => (httpNotFound w, app)
  | some h =>
    match h.call with
    | .error _ => (httpError w "500 Internal Server Error" 500, app)
    | .ok res =>
      match res.proc with
      | .error _ => (httpError w "500 Internal Server Error" 500, app)
      | .ok body => (w.write body, app)

/-- `n` successive runs of `handler` on the same request, threading the
shared application state through; yields the list of response statuses. -/
def handlerRepeat (app : OldApp) (path : String) : Nat → List (Option Nat)
  | 0 => []
  | n + 1 =>
    let (w, app') := handler app RW.init path
    w.status :: handlerRepeat app' path n

/-! ## The middle-generation dispatcher (kocha.go `Application.render`) -/

/-- A configured middleware, abstracted to its observable behaviour:
whether `Before(app, c)` and `After(app, c)` return normally or panic. -/
structure Middleware where
  beforeOk : Bool
  afterOk : Bool

/-- A `Result` as seen by `Application.render`: whether `Proc(response)`
returns normally, and the bytes it writes when it does. -/
structure ResultSpec where
  procOk : Bool
  body : String

/-- Outcome of `method.Call(args)`: a panic inside the action, or a normal
return carrying the response status code the action left set
(`newResponse` defaults it to 200) and the returned `Result`. -/
inductive CallOutcome
  | panics
  | returns (status : Nat) (res : ResultSpec)

/-- One dispatched request as `Application.render` sees it: the configured
middleware list, whether the pre-middleware setup (controller-shape check,
`ParseMultipartForm`) succeeds, the action outcome, and the behaviour of
the spec-modelled 500 error controller (`NewErrorController(500).Get()`):
whether `Get` itself returns and the error `Result` it builds. -/
structure DispatchSpec where
  mws : List Middleware
  setupOk : Bool
  call : CallOutcome
  errGetOk : Bool
  errRes : ResultSpec

/-- The response wrapper of `Application.render`: the mutable
`Response.StatusCode` field (`newResponse` defaults it to 200, modelled
from the spec), the status actually sent (first `WriteHeader` wins), and
the body written so far. -/
structure Resp where
  statusCode : Nat
  wroteHeader : Option Nat
  body : String
deriving DecidableEq

/-- `response.WriteHeader(code)`: only the first call takes effect. -/
def Resp.writeHeader (r : Resp) (code : Nat) : Resp :=
  if r.wroteHeader.isSome then r else { r with wroteHeader := some code }

/-- Append bytes to the response body (a write after `WriteHeader`). -/
def Resp.write (r : Resp) (s : String) : Resp :=
  { r with body := r.body ++ s }

/-- Observable state of one `Application.render` run: the response, the
indices of middlewares whose `Before`/`After` hooks were invoked, in
invocation order, and how many times `logStackAndError` ran. -/
structure DState where
  resp : Resp
  beforeCalls : List Nat
  afterCalls : List Nat
  logs : Nat
deriving DecidableEq

/-- The state at the start of `Application.render`. -/
def DState.init : DState :=
  ⟨⟨200, none, ""⟩, [], [], 0⟩

/-- The `Before` middleware loop: each middleware reached is invoked (and
recorded); a panicking `Before` aborts the loop (`false`). The index `i`
of the first middleware is threaded for the trace. -/
def runBefores : List Middleware → Nat → DState → DState × Bool
  | [], _, st => (st, true)
  | m :: rest, i, st =>
    let st := { st with beforeCalls := st.beforeCalls ++ [i] }
    if m.beforeOk then runBefores rest (i + 1) st else (st, false)

/-- The `After` middleware loop of the deferred block, same shape. -/
def runAfters : List Middleware → Nat → DState → DState × Bool
  | [], _, st => (st, true)
  | m :: rest, i, st =>
    let st := { st with afterCalls := st.afterCalls ++ [i] }
    if m.afterOk then runAfters rest (i + 1) st else (st, false)

/-- The body of `Application.render` (everything after the deferred block
is installed): setup, the `Before` loop, then `method.Call`.  Returns the
state together with `.ok result` on normal completion or `.error ()` when
a panic unwound into the deferred block. -/
def runBody (sp : DispatchSpec) (st : DState) : DState × Except Unit ResultSpec :=
  if sp.setupOk then
    let r := runBefores sp.mws 0 st
    if r.2 then
      match sp.call with
      | .panics => (r.1, .error ())
      | .returns status res =>
        ({ r.1 with resp := { r.1.resp with statusCode := status } }, .ok res)
    else (r.1, .error ())
  else (st, .error ())

/-- The innermost deferred recover of `Application.render`: log the error
and stack, set `response.StatusCode` to 500 and reply
`http.Error(response, http.StatusText(500), 500)` — whose `WriteHeader` is
ignored when a header was already sent. -/
def innerRecover (st : DState) : DState :=
  let st := { st with logs := st.logs + 1 }
  let resp := { st.resp with statusCode := 500 }
  let resp := (resp.writeHeader 500).write (statusText 500 ++ "\n")
  { st with resp := resp }

/-- The tail of the outer deferred block once a `result` is at hand: run
every middleware's `After`, `WriteHeader(response.StatusCode)`, then
`result[0].Proc(response)`; a panic in any of these is caught by the
innermost recover. -/
def finishRender (sp : DispatchSpec) (st : DState) (res : ResultSpec) : DState :=
  let r := runAfters sp.mws 0 st
  if r.2 then
    let st := { r.1 with resp := r.1.resp.writeHeader r.1.resp.statusCode }
    if res.procOk then { st with resp := st.resp.write res.body }
    else innerRecover st
  else innerRecover r.1

/-- The outer deferred block of `Application.render`: when the body
panicked, log once and build the 500 error `Result` through the
spec-modelled error controller (`NewErrorController(500)`; its `Get` sets
`response.StatusCode` to 500); a panic while building it falls to the
innermost recover.  Then finish with `After` loop, `WriteHeader` and
`Proc`. -/
def deferredPhase (sp : DispatchSpec) (st : DState) (bodyRes : Except Unit ResultSpec) : DState :=
  match bodyRes with
  | .ok res => finishRender sp st res
  | .error () =>
    let st := { st with logs := st.logs + 1 }
    if sp.errGetOk then
      finishRender sp { st with resp := { st.resp with statusCode := 500 } } sp.errRes
    else innerRecover st

/-- `Application.render` from `kocha.go`: the body under the deferred
block.  Total by construction: the two nested recovers catch every panic,
so every run produces a final state (no fault escapes the dispatch). -/
def render (sp : DispatchSpec) : DState :=
  let r := runBody sp DState.init
  deferredPhase sp r.1 r.2

/-- An `Application` as `ServeHTTP` sees it: the route table (`dispatch`
maps a request path to the matched action's behaviour, `none` on no
match), the middleware list, the behaviour of the spec-modelled 404 and
500 error controllers, and whether per-request setup succeeds. -/
structure App where
  route : String → Option CallOutcome
  mws : List Middleware
  setupOk : Bool
  err404GetOk : Bool
  err404Res : ResultSpec
  errGetOk : Bool
  errRes : ResultSpec

/-- `Application.ServeHTTP` from `kocha.go`: dispatch the request; when no
route matches, substitute `NewErrorController(http.StatusNotFound)` with
its `Get` method (spec-modelled: sets the response status to 404 and
returns the 404 error `Result`) as the controller; then `render`. -/
def ServeHTTP (app : App) (path : String) : DState :=
  let call : CallOutcome :=
    match app.route path with
    | some c => c
    | none => if app.err404GetOk then .returns 404 app.err404Res else .panics
  render { mws := app.mws, setupOk := app.setupOk, call := call,
           errGetOk := app.errGetOk, errRes := app.errRes }

/-! ## Theorems: path canonicalization (C7, C9) -/

/-- The segment stack of `processSegs` never accumulates an empty, `"."`
or (for a rooted path) `".."` segment, provided the incoming stack already
satisfies that invariant. -/
theorem processSegs_clean (rooted : Bool) :
    ∀ (segs stack : List String),
      (∀ s ∈ stack, s ≠ "" ∧ s ≠ "." ∧ (rooted = true → s ≠ "..")) →
      ∀ s ∈ processSegs rooted segs stack, s ≠ "" ∧ s ≠ "." ∧ (rooted = true → s ≠ "..") := by
  intro segs
  induction segs with
  | nil =>
    intro stack hstack s hs
    simp only [processSegs] at hs
    exact hstack s (List.mem_reverse.mp hs)
  | cons seg rest ih =>
    intro stack hstack s hs
    simp only [processSegs] at hs
    by_cases h1 : seg = "" ∨ seg = "."
    · rw [if_pos h1] at hs
      exact ih stack hstack s hs
    · rw [if_neg h1] at hs
      by_cases h2 : seg = ".."
      · rw [if_pos h2] at hs
        refine ih (dotDotStep rooted stack) ?_ s hs
        match stack, hstack with
        | [], _ =>
          intro s hs'
          cases rooted with
          | true => simp only [dotDotStep, if_pos] at hs'; cases hs'
          | false =>
            simp only [dotDotStep, Bool.false_eq_true, if_false] at hs'
            rw [List.mem_singleton] at hs'
            subst hs'
            exact ⟨by decide, by decide, by intro h; cases h⟩
        | top :: stk, hstack =>
          intro s hs'
          simp only [dotDotStep] at hs'
          by_cases h3 : top = ".."
          · rw [if_pos h3] at hs'
            rcases List.mem_cons.mp hs' with h | h
            · subst h
              refine ⟨by decide, by decide, ?_⟩
              intro hr
              exact absurd h3 ((hstack top (List.mem_cons_self _ _)).2.2 hr)
            · exact hstack s h
          · rw [if_neg h3] at hs'
            exact hstack s (List.mem_cons_of_mem _ hs')
      · rw [if_neg h2] at hs
        refine ih (seg :: stack) ?_ s hs
        intro s hs'
        rcases List.mem_cons.mp hs' with h | h
        · subst h
          exact ⟨fun h => h1 (Or.inl h), fun h => h1 (Or.inr h), fun _ => h2⟩
        · exact hstack s h

/-- C7: path canonicalization removes redundant `"."`, `".."` and
double-slash components (no segment kept by the cleaning pass of a rooted
path is empty, `"."` or `".."`) while preserving a single trailing slash:
a non-empty path ending in `'/'` normalizes to a path ending in `'/'`, and
the root path `"/"` normalizes to itself. -/
theorem normPath_trailing_slash :
    normPath "/" = some "/" ∧
    (∀ (p : String) (r : String), p.data.getLast? = some '/' → normPath p = some r →
      r.data.getLast? = some '/') ∧
    (∀ p : String, p.startsWith "/" = true →
      ∀ s ∈ processSegs true (splitSlashes p.data []) [], s ≠ "" ∧ s ≠ "." ∧ s ≠ "..") := by
  refine ⟨by decide, ?_, ?_⟩
  · intro p r hlast hnorm
    rw [normPath, hlast] at hnorm
    by_cases hres : pathClean p = "/"
    · have hr : r = "/" := by
        simp only [hres, ne_eq, not_true_eq_false, and_false, if_false,
          Option.some.injEq] at hnorm
        exact hnorm.symm
      subst hr
      decide
    · have hr : r = pathClean p ++ "/" := by
        simp only [ne_eq, hres, not_false_eq_true, and_true, if_true,
          Option.some.injEq] at hnorm
        exact hnorm.symm
      subst hr
      rw [String.data_append]
      exact List.getLast?_concat _
  · intro p _ s hs
    have := processSegs_clean true (splitSlashes p.data []) [] (by intro s hs'; cases hs') s hs
    exact ⟨this.1, this.2.1, this.2.2 rfl⟩

/-- Witness for `normPath_trailing_slash` at the concrete path
`"/foo//./bar/"`, which normalizes to `"/foo/bar/"`. -/
theorem normPath_trailing_slash_witness :
    ("/foo//./bar/" : String).data.getLast? = some '/' ∧
    normPath "/foo//./bar/" = some "/foo/bar/" ∧
    ("/foo/bar/" : String).data.getLast? = some '/' :=
  ⟨by decide, by decide,
    normPath_trailing_slash.2.1 "/foo//./bar/" "/foo/bar/" (by decide) (by decide)⟩

/-- C9: `normPath` indexes the last byte of its argument unguarded, so the
empty string panics (modelled as `none`); every non-empty path is
canonicalized without a fault. -/
theorem normPath_empty_panics :
    normPath "" = none ∧ ∀ p : String, p ≠ "" → (normPath p).isSome = true := by
  refine ⟨rfl, ?_⟩
  intro p hp
  rw [normPath]
  cases hgl : p.data.getLast? with
  | none =>
    exact absurd (String.ext (by rw [List.getLast?_eq_none_iff.mp hgl])) hp
  | some c => rfl

/-- Witness for `normPath_empty_panics` at the concrete path `"/user/7"`. -/
theorem normPath_empty_panics_witness :
    normPath "" = none ∧ (normPath "/user/7").isSome = true :=
  ⟨normPath_empty_panics.1, normPath_empty_panics.2 "/user/7" (by decide)⟩

/-! ## Concrete fixtures used by witnesses and counterexamples -/

/-- A template that renders to `"tmpl1"`. -/
def witnessTemplate : Template := ⟨.ok "tmpl1"⟩

/-- A legacy application configuration holding exactly a `root`/`html`
template. -/
def witnessOldAc : OldAppConfig :=
  ⟨"appv1", fun appName name format =>
    if appName = "appv1" ∧ name = "root" ∧ format = "html" then some witnessTemplate
    else none⟩

/-- A legacy controller whose response content type is `text/html`. -/
def witnessOldC : OldController := ⟨"root", "text/html"⟩

/-- An application for the current renderer that has no templates and no
embedded resources at all. -/
def noTemplateApp : RApp :=
  ⟨"app", "/myapp", fun _ _ _ _ => .error "template not found", fun _ => none⟩

/-- A fresh request context over `noTemplateApp`: no content type, no
format, status 200. -/
def noTemplateCtx : RCtx := ⟨noTemplateApp, "c", "layout", "", none, ⟨"", 200⟩⟩

/-- A fresh request context with everything unset, used to witness the
`text/html` default. -/
def witnessBlankCtx : RCtx := ⟨noTemplateApp, "root", "layout", "", none, ⟨"", 200⟩⟩

/-- A request context whose content type `image/png` is outside
`MimeTypeFormats`. -/
def witnessPngCtx : RCtx := ⟨noTemplateApp, "root", "layout", "", none, ⟨"image/png", 200⟩⟩

/-! ## Theorems: content types and render arity (C4, C10) -/

/-- C4: if no response content type has been set, the renderer defaults it
to `text/html` (and the resolved format is then `html`); the output format
is derived from the fixed `MimeTypeFormats` mapping; and a content type
outside that mapping fails the render with an unknown-content-type fault —
an error in the current renderer, a panic in the legacy one. -/
theorem contentType_default_and_mapping :
    (∀ c : RCtx, c.Response.ContentType = "" →
      (setContentTypeIfNotExists "text/html" c).Response.ContentType = "text/html") ∧
    (∀ c : RCtx, c.Response.ContentType = "" → c.Format = "" →
      setFormatFromContentTypeIfNotExists (setContentTypeIfNotExists "text/html" c) =
        .ok { c with Response := { c.Response with ContentType := "text/html" },
                     Format := "html" }) ∧
    (mimeTypeFormatsGet "application/json" = "json" ∧
     mimeTypeFormatsGet "application/xml" = "xml" ∧
     mimeTypeFormatsGet "text/html" = "html" ∧
     mimeTypeFormatsGet "text/plain" = "txt") ∧
    (∀ ct : String, ct ∉ MimeTypeFormats.map Prod.fst → mimeTypeFormatsGet ct = "") ∧
    (∀ (c : RCtx) (data : Option String), c.Format = "" →
      mimeTypeFormatsGet c.Response.ContentType = "" → c.Response.ContentType ≠ "" →
      Render c data = .error ("unknown content type: " ++ c.Response.ContentType)) ∧
    (∀ (ac : OldAppConfig) (c : OldController), mimeTypeFormatsGet c.ContentType = "" →
      ControllerRender ac c [] = .panicked ("unknown Content-Type: " ++ c.ContentType)) := by
  refine ⟨?_, ?_, ⟨rfl, rfl, rfl, rfl⟩, ?_, ?_, ?_⟩
  · intro c h
    simp [setContentTypeIfNotExists, h]
  · intro c hct hfmt
    simp [setContentTypeIfNotExists, setFormatFromContentTypeIfNotExists, hct, hfmt]
    rfl
  · intro ct hct
    simp only [MimeTypeFormats, List.map, List.mem_cons, List.not_mem_nil, or_false,
      not_or] at hct
    obtain ⟨h1, h2, h3, h4⟩ := hct
    have g1 : ("application/json" = ct) = False := eq_false fun h => h1 h.symm
    have g2 : ("application/xml" = ct) = False := eq_false fun h => h2 h.symm
    have g3 : ("text/html" = ct) = False := eq_false fun h => h3 h.symm
    have g4 : ("text/plain" = ct) = False := eq_false fun h => h4 h.symm
    simp [mimeTypeFormatsGet, MimeTypeFormats, List.find?, g1, g2, g3, g4]
  · intro c data hfmt hget hct
    have hsc : setContentTypeIfNotExists "text/html" (setData data c) = setData data c := by
      simp [setContentTypeIfNotExists, setData]
      cases data <;> simp [hct]
    have hdata : (setData data c).Format = c.Format ∧
        (setData data c).Response = c.Response := by
      cases data <;> simp [setData]
    simp only [Render, hsc]
    simp [setFormatFromContentTypeIfNotExists, hdata.1, hdata.2, hfmt, hget]
  · intro ac c h
    simp [ControllerRender, renderWithCtx, h]

/-- Witness for `contentType_default_and_mapping`: an unset content type
resolves to `text/html`/`html`, and the content type `image/png` (outside
the mapping) makes both renderers fail with the unknown-content-type
fault. -/
theorem contentType_default_and_mapping_witness :
    setFormatFromContentTypeIfNotExists
        (setContentTypeIfNotExists "text/html" witnessBlankCtx) =
      .ok { witnessBlankCtx with
              Response := { witnessBlankCtx.Response with ContentType := "text/html" },
              Format := "html" } ∧
    Render witnessPngCtx none = .error ("unknown content type: " ++ "image/png") ∧
    ControllerRender witnessOldAc ⟨"root", "image/png"⟩ [] =
      .panicked ("unknown Content-Type: " ++ "image/png") :=
  ⟨contentType_default_and_mapping.2.1 witnessBlankCtx rfl rfl,
   contentType_default_and_mapping.2.2.2.2.1 witnessPngCtx none rfl rfl (by decide),
   contentType_default_and_mapping.2.2.2.2.2 witnessOldAc ⟨"root", "image/png"⟩ rfl⟩

/-- C10: the legacy `Controller.Render` accepts at most one context
argument: with none it renders with a nil context, with exactly one it
uses that context, with two or more it panics with `too many arguments`. -/
theorem controllerRender_arity (ac : OldAppConfig) (c : OldController) :
    (∀ cs : List CtxBag, 2 ≤ cs.length →
      ControllerRender ac c cs = .panicked "too many arguments") ∧
    (∀ t : Template, mimeTypeFormatsGet c.ContentType ≠ "" →
      ac.TemplateSetGet ac.AppName c.Name (mimeTypeFormatsGet c.ContentType) = some t →
      ControllerRender ac c [] = .ok ⟨t, none⟩ ∧
      ∀ ctx : CtxBag, ControllerRender ac c [ctx] = .ok ⟨t, some ctx⟩) := by
  constructor
  · intro cs hlen
    match cs with
    | [] => simp at hlen
    | [x] => simp at hlen
    | x :: y :: rest => rfl
  · intro t hfmt hget
    constructor
    · simp [ControllerRender, renderWithCtx, hfmt, hget]
    · intro ctx
      simp [ControllerRender, renderWithCtx, hfmt, hget]

/-- Witness for `controllerRender_arity` at a concrete configuration with
a `root.html` template: two contexts panic, zero and one succeed. -/
theorem controllerRender_arity_witness :
    ControllerRender witnessOldAc witnessOldC [[], []] = .panicked "too many arguments" ∧
    ControllerRender witnessOldAc witnessOldC [] = .ok ⟨witnessTemplate, none⟩ ∧
    ControllerRender witnessOldAc witnessOldC [[("k", "v")]] =
      .ok ⟨witnessTemplate, some [("k", "v")]⟩ :=
  ⟨(controllerRender_arity witnessOldAc witnessOldC).1 [[], []] (by decide),
   ((controllerRender_arity witnessOldAc witnessOldC).2 witnessTemplate
      (by decide) rfl).1,
   ((controllerRender_arity witnessOldAc witnessOldC).2 witnessTemplate
      (by decide) rfl).2 [("k", "v")]⟩

/-! ## Theorems: error rendering (C5) -/

/-- C5 counterexample: `RenderError` at status code 999 (no standard
reason phrase) with no error template renders successfully but with an
**empty** body — `http.StatusText(999)` is `""` — refuting the claim that
an error render always produces non-empty bytes. -/
theorem renderError_unknown_code_empty_body :
    RenderError noTemplateCtx 999 none = .ok ⟨"text/plain", 999, ""⟩ ∧
    ¬ (∀ w : Written, RenderError noTemplateCtx 999 none = .ok w → w.Body ≠ "") := by
  refine ⟨rfl, fun h => h ⟨"text/plain", 999, ""⟩ rfl rfl⟩

/-- C5 as amended: error rendering follows the strict two-step fallback —
the `errors/<code>` template in the resolved format first, and only when
that lookup fails, a plain-text body equal to the standard reason phrase —
and the fallback body is non-empty exactly when the status code has a
standard reason phrase. -/
theorem renderError_two_step_fallback (c c2 : RCtx) (code : Nat) (data : Option String)
    (hfmt : setFormatFromContentTypeIfNotExists
      (setContentTypeIfNotExists "text/html" (setData data c)) = .ok c2) :
    (∀ (t : Template) (body : String),
      c2.App.TemplateGet c2.App.AppName c2.Layout (errorTemplateName code) c2.Format = .ok t →
      t.exec = .ok body →
      RenderError c code data = .ok ⟨c2.Response.ContentType, code, body⟩) ∧
    (∀ e : String,
      c2.App.TemplateGet c2.App.AppName c2.Layout (errorTemplateName code) c2.Format = .error e →
      RenderError c code data = .ok ⟨"text/plain", code, statusText code⟩) ∧
    (statusText code ≠ "" → ∀ e : String,
      c2.App.TemplateGet c2.App.AppName c2.Layout (errorTemplateName code) c2.Format = .error e →
      ∀ w : Written, RenderError c code data = .ok w → w.Body ≠ "") := by
  refine ⟨?_, ?_, ?_⟩
  · intro t body hget hexec
    simp [RenderError, hfmt, hget, hexec, contextRender]
  · intro e hget
    simp [RenderError, hfmt, hget, contextRender]
  · intro hst e hget w hw
    simp [RenderError, hfmt, hget, contextRender] at hw
    rw [← hw]
    exact hst

/-- `noTemplateCtx` after the content-type and format resolution steps. -/
def noTemplateCtxResolved : RCtx :=
  ⟨noTemplateApp, "c", "layout", "html", none, ⟨"text/html", 200⟩⟩

/-- Witness for `renderError_two_step_fallback`: with no templates at all,
a 500 error render falls back to the plain-text reason phrase
`Internal Server Error`, which is non-empty. -/
theorem renderError_two_step_fallback_witness :
    RenderError noTemplateCtx 500 none = .ok ⟨"text/plain", 500, statusText 500⟩ ∧
    ∀ w : Written, RenderError noTemplateCtx 500 none = .ok w → w.Body ≠ "" :=
  ⟨(renderError_two_step_fallback noTemplateCtx noTemplateCtxResolved
      500 none rfl).2.1 "template not found" rfl,
   (renderError_two_step_fallback noTemplateCtx noTemplateCtxResolved
      500 none rfl).2.2 (by decide) "template not found" rfl⟩

/-! ## Theorems: SendFile resolution (C6) -/

/-- An application holding the single embedded resource `/abs.txt`. -/
def embeddedAbsApp : RApp :=
  ⟨"app", "/myapp", fun _ _ _ _ => .error "template not found",
   fun p => if p = "/abs.txt" then some "embedded" else none⟩

/-- A fresh request context over `embeddedAbsApp`. -/
def embeddedAbsCtx : RCtx := ⟨embeddedAbsApp, "c", "layout", "", none, ⟨"", 200⟩⟩

/-- A filesystem with no files at all. -/
def emptyFs : String → Option String := fun _ => none

/-- A trivial extension-based content-type detector. -/
def detectExtConst : String → String := fun _ => "text/plain"

/-- A trivial body-based content-type detector. -/
def detectBodyConst : String → String := fun _ => "application/octet-stream"

/-- C6 counterexample: `SendFile` consults the embedded resource set
*before* testing whether the path is absolute.  For the absolute path
`/abs.txt`, absent from the filesystem but present in the resource set,
the code serves the embedded content with status 200 — not the direct
filesystem read (which would find nothing) and not a 404 error render
that the claim requires for a file missing from the filesystem. -/
theorem sendFile_absolute_resource_first :
    filepathIsAbs "/abs.txt" = true ∧
    emptyFs "/abs.txt" = none ∧
    SendFile emptyFs detectExtConst detectBodyConst embeddedAbsCtx "/abs.txt" =
      .ok ⟨"text/plain", 200, "embedded"⟩ ∧
    SendFile emptyFs detectExtConst detectBodyConst embeddedAbsCtx "/abs.txt" ≠
      RenderError embeddedAbsCtx 404 none := by
  refine ⟨rfl, rfl, rfl, ?_⟩
  intro h
  rw [show SendFile emptyFs detectExtConst detectBodyConst embeddedAbsCtx "/abs.txt" =
        .ok ⟨"text/plain", 200, "embedded"⟩ from rfl,
      show RenderError embeddedAbsCtx 404 none =
        .ok ⟨"text/plain", 404, "Not Found"⟩ from rfl] at h
  exact absurd (Except.ok.inj h) (by decide)

/-- C6 as amended: `SendFile` consults the embedded resource set first for
**every** path, absolute or relative; only when the resource set misses is
an absolute path read directly from the filesystem, and a relative path
resolved against the static-file root (`AppPath/public/path`); a file
found nowhere renders a 404 error Result instead of a fault. -/
theorem sendFile_resolution (fs : String → Option String)
    (dExt dBody : String → String) (c : RCtx) (p : String) :
    (∀ b : String, c.App.ResourceSetGet p = some b →
      SendFile fs dExt dBody c p =
        .ok ⟨if dExt p = "" then dBody b else dExt p, c.Response.StatusCode, b⟩) ∧
    (c.App.ResourceSetGet p = none → filepathIsAbs p = true →
      (fs p = none → SendFile fs dExt dBody c p = RenderError c 404 none) ∧
      (∀ b : String, fs p = some b →
        SendFile fs dExt dBody c p =
          .ok ⟨if dExt p = "" then dBody b else dExt p, c.Response.StatusCode, b⟩)) ∧
    (c.App.ResourceSetGet p = none → filepathIsAbs p = false →
      (fs (filepathJoin [c.App.AppPath, StaticDir, p]) = none →
        SendFile fs dExt dBody c p = RenderError c 404 none) ∧
      (∀ b : String, fs (filepathJoin [c.App.AppPath, StaticDir, p]) = some b →
        SendFile fs dExt dBody c p =
          .ok ⟨if dExt (filepathJoin [c.App.AppPath, StaticDir, p]) = "" then dBody b
               else dExt (filepathJoin [c.App.AppPath, StaticDir, p]),
               c.Response.StatusCode, b⟩)) := by
  refine ⟨?_, ?_, ?_⟩
  · intro b hres
    simp [SendFile, hres, contextRender]
  · intro hres habs
    constructor
    · intro hfs
      simp [SendFile, hres, habs, hfs]
    · intro b hfs
      simp [SendFile, hres, habs, hfs, contextRender]
  · intro hres habs
    constructor
    · intro hfs
      simp [SendFile, hres, habs, hfs]
    · intro b hfs
      simp [SendFile, hres, habs, hfs, contextRender]

/-- Witness for `sendFile_resolution`: a relative path missing from the
resource set and from `"/myapp/public"` renders the 404 error Result,
which (no error template being present) is the plain-text `Not Found`. -/
theorem sendFile_resolution_witness :
    SendFile emptyFs detectExtConst detectBodyConst noTemplateCtx "missing.txt" =
      RenderError noTemplateCtx 404 none ∧
    RenderError noTemplateCtx 404 none = .ok ⟨"text/plain", 404, "Not Found"⟩ :=
  ⟨((sendFile_resolution emptyFs detectExtConst detectBodyConst
      noTemplateCtx "missing.txt").2.2 rfl rfl).1 rfl,
   rfl⟩

/-- A dispatch scenario: one well-behaved middleware, a panicking
handler, a well-behaved 500 error controller producing `error page`. -/
def witnessPanicSpec : DispatchSpec :=
  ⟨[⟨true, true⟩], true, .panics, true, ⟨true, "error page"⟩⟩

/-- A legacy application whose only route's action panics with `boom`. -/
def witnessPanicOldApp : OldApp :=
  ⟨fun p => if p = "/error" then some ⟨.error "boom"⟩ else none⟩

/-- A dispatch scenario with two middlewares, the first panicking in
`Before`, around a handler that would return normally. -/
def witnessBeforeFaultSpec : DispatchSpec :=
  ⟨[⟨false, true⟩, ⟨true, true⟩], true, .returns 200 ⟨true, "hello"⟩, true, ⟨true, "error page"⟩⟩

/-! ## Lemmas on the dispatcher state machine -/

/-- `runBefores` only appends to the `Before` trace; its success bit says
exactly that every `Before` hook returned normally. -/
theorem runBefores_spec : ∀ (l : List Middleware) (i : Nat) (st : DState),
    (runBefores l i st).1.resp = st.resp ∧
    (runBefores l i st).1.afterCalls = st.afterCalls ∧
    (runBefores l i st).1.logs = st.logs ∧
    (runBefores l i st).2 = l.all (fun m => m.beforeOk) := by
  intro l
  induction l with
  | nil => intro i st; exact ⟨rfl, rfl, rfl, rfl⟩
  | cons m rest ih =>
    intro i st
    simp only [runBefores, List.all_cons]
    cases hok : m.beforeOk with
    | true =>
      simpa [hok] using ih (i + 1) { st with beforeCalls := st.beforeCalls ++ [i] }
    | false => simp [hok]

/-- When every `Before` hook returns, the `Before` loop records exactly
the indices from `i` on, in order, and reports success. -/
theorem runBefores_all_ok : ∀ (l : List Middleware) (i : Nat) (st : DState),
    l.all (fun m => m.beforeOk) = true →
    runBefores l i st =
      ({ st with beforeCalls := st.beforeCalls ++ List.range' i l.length }, true) := by
  intro l
  induction l with
  | nil => intro i st _; simp [runBefores, List.range']
  | cons m rest ih =>
    intro i st hall
    rw [List.all_cons, Bool.and_eq_true] at hall
    simp only [runBefores, hall.1, if_true, List.length_cons, List.range'_succ]
    rw [ih (i + 1) _ hall.2]
    simp

/-- `runAfters` only appends to the `After` trace; its success bit says
exactly that every `After` hook returned normally. -/
theorem runAfters_spec : ∀ (l : List Middleware) (i : Nat) (st : DState),
    (runAfters l i st).1.resp = st.resp ∧
    (runAfters l i st).1.beforeCalls = st.beforeCalls ∧
    (runAfters l i st).1.logs = st.logs ∧
    (runAfters l i st).2 = l.all (fun m => m.afterOk) := by
  intro l
  induction l with
  | nil => intro i st; exact ⟨rfl, rfl, rfl, rfl⟩
  | cons m rest ih =>
    intro i st
    simp only [runAfters, List.all_cons]
    cases hok : m.afterOk with
    | true =>
      simpa [hok] using ih (i + 1) { st with afterCalls := st.afterCalls ++ [i] }
    | false => simp [hok]

/-- When every `After` hook returns, the `After` loop records exactly the
indices from `i` on, in order, and reports success. -/
theorem runAfters_all_ok : ∀ (l : List Middleware) (i : Nat) (st : DState),
    l.all (fun m => m.afterOk) = true →
    runAfters l i st =
      ({ st with afterCalls := st.afterCalls ++ List.range' i l.length }, true) := by
  intro l
  induction l with
  | nil => intro i st _; simp [runAfters, List.range']
  | cons m rest ih =>
    intro i st hall
    rw [List.all_cons, Bool.and_eq_true] at hall
    simp only [runAfters, hall.1, if_true, List.length_cons, List.range'_succ]
    rw [ih (i + 1) _ hall.2]
    simp

/-- The body phase never touches the `After` trace or the log counter. -/
theorem runBody_pres (sp : DispatchSpec) (st : DState) :
    (runBody sp st).1.afterCalls = st.afterCalls ∧ (runBody sp st).1.logs = st.logs := by
  have hb := runBefores_spec sp.mws 0 st
  simp only [runBody]
  cases hsu : sp.setupOk with
  | false => simp
  | true =>
    simp only [if_true]
    cases hr : (runBefores sp.mws 0 st).2 with
    | false => simp [hb.2.1, hb.2.2.1]
    | true => cases hc : sp.call <;> simp [hb.2.1, hb.2.2.1]

/-- A fault in a `Before` hook or in the action makes the body phase
unwind into the deferred block with the response untouched. -/
theorem runBody_fault (sp : DispatchSpec) (st : DState) (hsu : sp.setupOk = true)
    (h : sp.mws.all (fun m => m.beforeOk) = false ∨ sp.call = .panics) :
    (runBody sp st).2 = .error () ∧ (runBody sp st).1.resp = st.resp := by
  have hb := runBefores_spec sp.mws 0 st
  simp only [runBody, hsu, if_true]
  cases hr : (runBefores sp.mws 0 st).2 with
  | false => simp [hb.1]
  | true =>
    rcases h with h | h
    · rw [hb.2.2.2, h] at hr
      cases hr
    · rw [h]
      simp [hb.1]

/-- The first `WriteHeader` wins: afterwards the sent status is the
previously sent one, or the new code when none was sent. -/
theorem writeHeader_getD (r : Resp) (c : Nat) :
    (r.writeHeader c).wroteHeader = some (r.wroteHeader.getD c) := by
  cases h : r.wroteHeader <;> simp [Resp.writeHeader, h]

/-- The innermost recover logs once more, replies through `http.Error`
(status 500 unless a header was already sent) and appends the minimal
plain-text body. -/
theorem innerRecover_parts (st : DState) :
    (innerRecover st).afterCalls = st.afterCalls ∧
    (innerRecover st).beforeCalls = st.beforeCalls ∧
    (innerRecover st).logs = st.logs + 1 ∧
    (innerRecover st).resp.wroteHeader = some (st.resp.wroteHeader.getD 500) ∧
    (innerRecover st).resp.body = st.resp.body ++ (statusText 500 ++ "\n") := by
  refine ⟨rfl, rfl, rfl, ?_, ?_⟩ <;>
    cases h : st.resp.wroteHeader <;>
      simp [innerRecover, Resp.writeHeader, Resp.write, h]

/-- When every `After` hook returns, the deferred tail is: record the full
`After` trace, send the header carrying `Response.StatusCode`, then either
write the `Result` bytes or (if `Proc` panics) fall to the innermost
recover. -/
theorem finishRender_ok (sp : DispatchSpec) (st : DState) (res : ResultSpec)
    (hall : sp.mws.all (fun m => m.afterOk) = true) :
    finishRender sp st res =
      (if res.procOk then
        { st with afterCalls := st.afterCalls ++ List.range sp.mws.length,
                  resp := (st.resp.writeHeader st.resp.statusCode).write res.body }
       else innerRecover
        { st with afterCalls := st.afterCalls ++ List.range sp.mws.length,
                  resp := st.resp.writeHeader st.resp.statusCode }) := by
  simp only [finishRender, runAfters_all_ok sp.mws 0 st hall, List.range_eq_range']
  cases hp : res.procOk <;> simp

/-- The deferred tail always leaves the log counter at least as large. -/
theorem finishRender_logs_ge (sp : DispatchSpec) (st : DState) (res : ResultSpec) :
    st.logs ≤ (finishRender sp st res).logs := by
  have ha := runAfters_spec sp.mws 0 st
  simp only [finishRender]
  cases hr : (runAfters sp.mws 0 st).2 with
  | false =>
    simp only [Bool.false_eq_true, if_false]
    rw [(innerRecover_parts _).2.2.1, ha.2.2.1]
    omega
  | true =>
    simp only [if_true]
    cases hp : res.procOk with
    | true => simp [ha.2.2.1]
    | false =>
      simp only [Bool.false_eq_true, if_false]
      rw [(innerRecover_parts _).2.2.1]
      simp [ha.2.2.1]

/-- The deferred tail never touches the `Before` trace. -/
theorem finishRender_beforeCalls (sp : DispatchSpec) (st : DState) (res : ResultSpec) :
    (finishRender sp st res).beforeCalls = st.beforeCalls := by
  have ha := runAfters_spec sp.mws 0 st
  simp only [finishRender]
  cases hr : (runAfters sp.mws 0 st).2 with
  | false =>
    simp only [Bool.false_eq_true, if_false]
    rw [(innerRecover_parts _).2.1, ha.2.1]
  | true =>
    simp only [if_true]
    cases hp : res.procOk with
    | true => simp [ha.2.1]
    | false =>
      simp only [Bool.false_eq_true, if_false]
      rw [(innerRecover_parts _).2.1]
      simp [ha.2.1]

/-- When every `After` hook returns, the deferred tail records the whole
`After` trace exactly once, in registration order. -/
theorem finishRender_afterCalls (sp : DispatchSpec) (st : DState) (res : ResultSpec)
    (hall : sp.mws.all (fun m => m.afterOk) = true) :
    (finishRender sp st res).afterCalls = st.afterCalls ++ List.range sp.mws.length := by
  rw [finishRender_ok sp st res hall]
  cases hp : res.procOk with
  | true => simp
  | false =>
    simp only [Bool.false_eq_true, if_false]
    rw [(innerRecover_parts _).1]

/-- Entering the deferred tail with the status-code field at 500 and no
header sent yet, the response goes out with status 500 no matter what the
`After` hooks or `Proc` do. -/
theorem finishRender_header_500 (sp : DispatchSpec) (st : DState) (res : ResultSpec)
    (hsc : st.resp.statusCode = 500) (hwh : st.resp.wroteHeader = none) :
    (finishRender sp st res).resp.wroteHeader = some 500 := by
  have ha := runAfters_spec sp.mws 0 st
  simp only [finishRender]
  cases hr : (runAfters sp.mws 0 st).2 with
  | false =>
    simp only [Bool.false_eq_true, if_false]
    rw [(innerRecover_parts _).2.2.2.1, ha.1, hwh]
    rfl
  | true =>
    simp only [if_true]
    cases hp : res.procOk with
    | true =>
      simp only [if_true, Resp.write]
      rw [writeHeader_getD, ha.1, hsc, hwh]
      rfl
    | false =>
      simp only [Bool.false_eq_true, if_false]
      rw [(innerRecover_parts _).2.2.2.1]
      simp only [writeHeader_getD, ha.1, hsc, hwh]
      rfl

/-- The deferred tail always sends a header. -/
theorem finishRender_wrote (sp : DispatchSpec) (st : DState) (res : ResultSpec) :
    (finishRender sp st res).resp.wroteHeader.isSome = true := by
  simp only [finishRender]
  cases hr : (runAfters sp.mws 0 st).2 with
  | false =>
    simp only [Bool.false_eq_true, if_false]
    rw [(innerRecover_parts _).2.2.2.1]
    rfl
  | true =>
    simp only [if_true]
    cases hp : res.procOk with
    | true =>
      simp only [if_true, Resp.write]
      rw [writeHeader_getD]
      rfl
    | false =>
      simp only [Bool.false_eq_true, if_false]
      rw [(innerRecover_parts _).2.2.2.1]
      rfl

/-- The deferred block always sends a header, whatever happened before. -/
theorem deferredPhase_wrote (sp : DispatchSpec) (st : DState)
    (bodyRes : Except Unit ResultSpec) :
    (deferredPhase sp st bodyRes).resp.wroteHeader.isSome = true := by
  cases bodyRes with
  | ok res => exact finishRender_wrote sp st res
  | error e =>
    cases e
    simp only [deferredPhase]
    cases hEG : sp.errGetOk with
    | false =>
      simp only [Bool.false_eq_true, if_false]
      rw [(innerRecover_parts _).2.2.2.1]
      rfl
    | true =>
      simp only [if_true]
      exact finishRender_wrote sp _ sp.errRes

/-- The full outcome of the deferred block entered on a body fault with a
pristine response: header 500, at least one more log entry, and — when the
error controller and every `After` hook return — the error `Result` bytes
(`Proc` returning) or the minimal plain-text 500 page (`Proc` panicking,
one extra log entry). -/
theorem deferred_error_full (sp : DispatchSpec) (st : DState)
    (hresp : st.resp = ⟨200, none, ""⟩) :
    (deferredPhase sp st (.error ())).resp.wroteHeader = some 500 ∧
    st.logs + 1 ≤ (deferredPhase sp st (.error ())).logs ∧
    (sp.errGetOk = true → sp.mws.all (fun m => m.afterOk) = true →
      (sp.errRes.procOk = true →
        (deferredPhase sp st (.error ())).resp.body = sp.errRes.body ∧
        (deferredPhase sp st (.error ())).logs = st.logs + 1) ∧
      (sp.errRes.procOk = false →
        (deferredPhase sp st (.error ())).resp.body = statusText 500 ++ "\n" ∧
        (deferredPhase sp st (.error ())).logs = st.logs + 2)) := by
  obtain ⟨resp, bc, ac, lg⟩ := st
  simp only at hresp
  subst hresp
  simp only [deferredPhase]
  cases hEG : sp.errGetOk with
  | false =>
    simp only [Bool.false_eq_true, if_false]
    refine ⟨?_, ?_, fun h => h.elim⟩
    · rw [(innerRecover_parts _).2.2.2.1]
      rfl
    · rw [(innerRecover_parts _).2.2.1]
      show lg + 1 ≤ lg + 1 + 1
      omega
  | true =>
    simp only [if_true]
    refine ⟨?_, ?_, ?_⟩
    · exact finishRender_header_500 sp _ sp.errRes rfl rfl
    · have h := finishRender_logs_ge sp
        ⟨⟨500, none, ""⟩, bc, ac, lg + 1⟩ sp.errRes
      exact h
    · intro _ hall
      rw [finishRender_ok _ _ _ hall]
      constructor
      · intro hp
        simp [hp, Resp.writeHeader, Resp.write]
      · intro hp
        simp only [hp, Bool.false_eq_true, if_false]
        rw [(innerRecover_parts _).2.2.2.2]
        rw [(innerRecover_parts _).2.2.1]
        simp [Resp.writeHeader]

/-! ## Theorems: fault containment and middleware order (C1, C2) -/

/-- C1: a fault in a `Before` middleware or in the handler is caught at
the dispatch boundary: the response goes out with status 500, the fault is
logged, and — when the error path itself behaves — the 500 error `Result`
built by the error-controller convention is what is written; if `Proc` of
that error `Result` itself faults, the innermost recover writes the
minimal plain-text 500 page (`Internal Server Error`) and logs again.  No
fault ever escapes: every dispatch, faulting or not, sends exactly one
response header (third conjunct).  The legacy `server.go` handler likewise
converts an action panic into a plain `500 Internal Server Error` reply
(last conjunct). -/
theorem render_fault_containment (sp : DispatchSpec)
    (hsetup : sp.setupOk = true)
    (hfault : (∃ m ∈ sp.mws, m.beforeOk = false) ∨ sp.call = .panics) :
    (render sp).resp.wroteHeader = some 500 ∧
    1 ≤ (render sp).logs ∧
    (∀ sp' : DispatchSpec, (render sp').resp.wroteHeader.isSome = true) ∧
    (sp.errGetOk = true → sp.mws.all (fun m => m.afterOk) = true →
      (sp.errRes.procOk = true →
        (render sp).resp.body = sp.errRes.body ∧ (render sp).logs = 1) ∧
      (sp.errRes.procOk = false →
        (render sp).resp.body = statusText 500 ++ "\n" ∧ (render sp).logs = 2)) ∧
    (∀ (oapp : OldApp) (p : String) (hh : OldHandler) (msg : String),
      oapp.dispatch p = some hh → hh.call = .error msg →
      (handler oapp RW.init p).1 = ⟨some 500, "500 Internal Server Error" ++ "\n"⟩) := by
  have hfault' : sp.mws.all (fun m => m.beforeOk) = false ∨ sp.call = .panics := by
    rcases hfault with ⟨m, hm, hmf⟩ | h
    · exact Or.inl (List.all_eq_false.mpr ⟨m, hm, by simp [hmf]⟩)
    · exact Or.inr h
  have hbody := runBody_fault sp DState.init hsetup hfault'
  have hpres := runBody_pres sp DState.init
  have hrw : render sp = deferredPhase sp (runBody sp DState.init).1 (.error ()) := by
    simp only [render]
    rw [hbody.1]
  have hlogs0 : (runBody sp DState.init).1.logs = 0 := hpres.2
  have hfull := deferred_error_full sp (runBody sp DState.init).1 hbody.2
  refine ⟨?_, ?_, ?_, ?_, ?_⟩
  · rw [hrw]; exact hfull.1
  · rw [hrw]
    have := hfull.2.1
    omega
  · intro sp'
    simp only [render]
    exact deferredPhase_wrote sp' _ _
  · intro hEG hall
    have h4 := hfull.2.2 hEG hall
    refine ⟨fun hp => ?_, fun hp => ?_⟩
    · rw [hrw]
      have := (h4.1 hp)
      rw [hlogs0] at this
      exact this
    · rw [hrw]
      have := (h4.2 hp)
      rw [hlogs0] at this
      exact this
  · intro oapp p hh msg hdis hcall
    simp [handler, hdis, hcall, httpError, RW.writeHeader, RW.write, RW.init]

/-- Witness for `render_fault_containment`: one well-behaved middleware, a
panicking handler, a well-behaved 500 error controller — the response is a
500 carrying the error page, logged exactly once; and a legacy handler
whose action panics replies `500 Internal Server Error`. -/
theorem render_fault_containment_witness :
    (render witnessPanicSpec).resp.wroteHeader = some 500 ∧
    (render witnessPanicSpec).resp.body = "error page" ∧
    (render witnessPanicSpec).logs = 1 ∧
    (handler witnessPanicOldApp RW.init "/error").1 =
      ⟨some 500, "500 Internal Server Error" ++ "\n"⟩ :=
  ⟨(render_fault_containment witnessPanicSpec rfl (Or.inr rfl)).1,
   (((render_fault_containment witnessPanicSpec rfl (Or.inr rfl)).2.2.2.1
      rfl rfl).1 rfl).1,
   (((render_fault_containment witnessPanicSpec rfl (Or.inr rfl)).2.2.2.1
      rfl rfl).1 rfl).2,
   (render_fault_containment witnessPanicSpec rfl (Or.inr rfl)).2.2.2.2
      witnessPanicOldApp "/error" ⟨.error "boom"⟩ "boom" rfl rfl⟩

/-- C2: every configured middleware's `After` hook runs exactly once per
request, in registration order — the same order as `Before`, not reversed
— and this holds no matter whether the setup, a `Before` hook or the
handler faulted (the theorem places no hypothesis on them); when the
`Before` hooks all return, the `After` trace is moreover identical to the
`Before` trace.  (Hypotheses: the `After` hooks themselves return, and
building the error `Result` on the fault path does not itself fault.) -/
theorem after_middleware_order (sp : DispatchSpec)
    (hafter : ∀ m ∈ sp.mws, m.afterOk = true)
    (herr : sp.errGetOk = true) :
    (render sp).afterCalls = List.range sp.mws.length ∧
    (sp.setupOk = true → sp.mws.all (fun m => m.beforeOk) = true →
      (render sp).beforeCalls = (render sp).afterCalls) := by
  have hall : sp.mws.all (fun m => m.afterOk) = true := List.all_eq_true.mpr hafter
  have hpres := runBody_pres sp DState.init
  have hafterTrace : (render sp).afterCalls = List.range sp.mws.length := by
    simp only [render]
    cases hb : (runBody sp DState.init).2 with
    | ok res =>
      simp only [deferredPhase]
      rw [finishRender_afterCalls _ _ _ hall, hpres.1]
      rfl
    | error e =>
      cases e
      simp only [deferredPhase, herr, if_true]
      rw [finishRender_afterCalls _ _ _ hall]
      show (runBody sp DState.init).1.afterCalls ++ List.range sp.mws.length =
        List.range sp.mws.length
      rw [hpres.1]
      rfl
  refine ⟨hafterTrace, ?_⟩
  intro hsu hbef
  rw [hafterTrace]
  have hbeforeTrace : (runBody sp DState.init).1.beforeCalls = List.range sp.mws.length := by
    simp only [runBody, hsu, if_true, runBefores_all_ok sp.mws 0 DState.init hbef]
    cases hc : sp.call <;> simp [DState.init, List.range_eq_range']
  simp only [render]
  cases hb : (runBody sp DState.init).2 with
  | ok res =>
    simp only [deferredPhase]
    rw [finishRender_beforeCalls, hbeforeTrace]
  | error e =>
    cases e
    simp only [deferredPhase, herr, if_true]
    rw [finishRender_beforeCalls]
    show (runBody sp DState.init).1.beforeCalls = List.range sp.mws.length
    exact hbeforeTrace

/-- Witness for `after_middleware_order`: two middlewares, the first of
which panics in `Before`, around a handler that would return normally —
both `After` hooks still run, in registration order `[0, 1]`. -/
theorem after_middleware_order_witness :
    (render witnessBeforeFaultSpec).afterCalls = List.range 2 :=
  (after_middleware_order witnessBeforeFaultSpec
    (by intro m hm; fin_cases hm <;> rfl) rfl).1

/-! ## Theorems: unmatched routes (C3, C8) -/

/-- The state after a fault-free dispatch: every `Before` and `After` hook
runs in registration order, the header goes out with the status the action
set, the `Result` bytes are the body, and nothing is logged. -/
theorem render_ok_state (sp : DispatchSpec) (hsetup : sp.setupOk = true)
    (hbef : sp.mws.all (fun m => m.beforeOk) = true)
    (hafter : sp.mws.all (fun m => m.afterOk) = true)
    (status : Nat) (res : ResultSpec) (hcall : sp.call = .returns status res)
    (hproc : res.procOk = true) :
    (render sp).resp.wroteHeader = some status ∧
    (render sp).resp.body = res.body ∧
    (render sp).beforeCalls = List.range sp.mws.length ∧
    (render sp).afterCalls = List.range sp.mws.length ∧
    (render sp).logs = 0 := by
  have hrw : render sp =
      finishRender sp
        { DState.init with
            beforeCalls := List.range' 0 sp.mws.length,
            resp := { DState.init.resp with statusCode := status } } res := by
    simp only [render, runBody, hsetup, if_true,
      runBefores_all_ok sp.mws 0 DState.init hbef, hcall]
    rfl
  rw [hrw, finishRender_ok _ _ _ hafter, hproc, if_pos rfl]
  refine ⟨?_, ?_, ?_, ?_, ?_⟩
  · rw [Resp.write, writeHeader_getD]
    rfl
  · simp [Resp.write, Resp.writeHeader, DState.init]
  · simp [DState.init, List.range_eq_range']
  · simp [DState.init, List.range_eq_range']
  · rfl

/-- A legacy application with no routes at all. -/
def oldEmptyApp : OldApp := ⟨fun _ => none⟩

/-- An application with one (well-behaved) middleware and no routes. -/
def oneMwApp : App :=
  ⟨fun _ => none, [⟨true, true⟩], true, true, ⟨true, "missing page"⟩, true, ⟨true, "error page"⟩⟩

/-- C3 counterexample: in `Application.ServeHTTP` an unmatched path is
*not* short-circuited past the middleware: the 404 error controller is
rendered through the full pipeline, so with one configured middleware the
`Before` and `After` traces are `[0]`, not empty — refuting "no middleware
is invoked" — while the response status is still 404. -/
theorem serveHTTP_unmatched_runs_middleware :
    (ServeHTTP oneMwApp "/missing").resp.wroteHeader = some 404 ∧
    (ServeHTTP oneMwApp "/missing").beforeCalls = [0] ∧
    (ServeHTTP oneMwApp "/missing").afterCalls = [0] ∧
    ¬ ((ServeHTTP oneMwApp "/missing").beforeCalls = [] ∧
       (ServeHTTP oneMwApp "/missing").afterCalls = []) := by
  refine ⟨rfl, rfl, rfl, ?_⟩
  intro h
  have h1 := h.1
  rw [show (ServeHTTP oneMwApp "/missing").beforeCalls = [0] from rfl] at h1
  simp at h1

/-- C3 as amended: an unmatched path always yields a 404 response, but the
two generations differ on middleware.  The legacy `server.go` handler
short-circuits to `http.NotFound` before anything else runs; in
`Application.ServeHTTP` the 404 is produced by substituting the error
controller and rendering it through the full pipeline, so every
middleware's `Before` and `After` hooks do run, in registration order. -/
theorem unmatched_404_both_generations :
    (∀ (oapp : OldApp) (p : String), oapp.dispatch p = none →
      handler oapp RW.init p = (⟨some 404, "404 page not found" ++ "\n"⟩, oapp)) ∧
    (∀ (app : App) (p : String), app.route p = none → app.setupOk = true →
      app.err404GetOk = true → app.err404Res.procOk = true →
      app.mws.all (fun m => m.beforeOk) = true →
      app.mws.all (fun m => m.afterOk) = true →
      (ServeHTTP app p).resp.wroteHeader = some 404 ∧
      (ServeHTTP app p).resp.body = app.err404Res.body ∧
      (ServeHTTP app p).beforeCalls = List.range app.mws.length ∧
      (ServeHTTP app p).afterCalls = List.range app.mws.length) := by
  constructor
  · intro oapp p h
    simp [handler, h, httpNotFound, httpError, RW.writeHeader, RW.write, RW.init]
  · intro app p hroute hsetup h404get h404proc hbef hafter
    have hrw : ServeHTTP app p =
        render { mws := app.mws, setupOk := app.setupOk,
                 call := .returns 404 app.err404Res,
                 errGetOk := app.errGetOk, errRes := app.errRes } := by
      simp only [ServeHTTP, hroute, h404get, if_true]
    rw [hrw]
    have h := render_ok_state
      { mws := app.mws, setupOk := app.setupOk, call := .returns 404 app.err404Res,
        errGetOk := app.errGetOk, errRes := app.errRes }
      hsetup hbef hafter 404 app.err404Res rfl h404proc
    exact ⟨h.1, h.2.1, h.2.2.1, h.2.2.2.1⟩

/-- Witness for `unmatched_404_both_generations`: the legacy handler with
no routes replies a plain 404; `ServeHTTP` over `oneMwApp` replies 404
with the error controller's page and runs the single middleware. -/
theorem unmatched_404_both_generations_witness :
    handler oldEmptyApp RW.init "/missing" =
      (⟨some 404, "404 page not found" ++ "\n"⟩, oldEmptyApp) ∧
    (ServeHTTP oneMwApp "/missing").resp.body = "missing page" ∧
    (ServeHTTP oneMwApp "/missing").afterCalls = List.range 1 :=
  ⟨unmatched_404_both_generations.1 oldEmptyApp "/missing" rfl,
   (unmatched_404_both_generations.2 oneMwApp "/missing"
      rfl rfl rfl rfl rfl rfl).2.1,
   (unmatched_404_both_generations.2 oneMwApp "/missing"
      rfl rfl rfl rfl rfl rfl).2.2.2⟩

/-- C8: dispatching an unmatched request mutates no state shared across
requests — the application state comes back unchanged — and repeating the
identical unmatched request any number of times yields status 404 every
time. -/
theorem unmatched_idempotent (app : OldApp) (path : String)
    (h : app.dispatch path = none) :
    (handler app RW.init path).2 = app ∧
    ∀ n : Nat, handlerRepeat app path n = List.replicate n (some 404) := by
  constructor
  · simp [handler, h]
  · intro n
    induction n with
    | zero => rfl
    | succ k ih =>
      simp only [handlerRepeat, handler, h, List.replicate_succ]
      rw [ih]
      rfl

/-- Witness for `unmatched_idempotent`: three identical `GET /missing`
requests against the routeless legacy application all return 404 and
leave the application unchanged. -/
theorem unmatched_idempotent_witness :
    (handler oldEmptyApp RW.init "/missing").2 = oldEmptyApp ∧
    handlerRepeat oldEmptyApp "/missing" 3 = List.replicate 3 (some 404) :=
  ⟨(unmatched_idempotent oldEmptyApp "/missing" rfl).1,
   (unmatched_idempotent oldEmptyApp "/missing" rfl).2 3⟩

end Kocha
